import Mathlib

/-!
Verification development for the coupon-bot repository.

This file shallowly embeds the response-classification functions of
`bot.py` / `claim_coupons.py`, the coupon extraction and scoring pipeline of
`coupon_utils.py`, the per-tenant dispatch step `process_user_claim`, and the
retry wrapper `_request_mcp_with_retry`, and proves properties about them.

Strings are modelled as `List Char` (Python `str` is a sequence of unicode
code points).  Python's `str.lower`, `str.strip` and the regex classes
`\s` / `\d` / `\w` are modelled on the character sets actually exercised by
the program: ASCII case mapping, ASCII whitespace, ASCII digits, and word
characters = ASCII alphanumerics, underscore and CJK ideographs.
-/

set_option maxRecDepth 8000

abbrev Chars := List Char

/-- Model of Python `\s` (whitespace class) and of the characters removed by
`str.strip()`. -/
def pyIsSpace (c : Char) : Bool :=
  c == ' ' || c == '\t' || c == '\n' || c == '\r' || c == '\x0b' || c == '\x0c'

/-- Model of Python `str.lower()` (character-wise ASCII case folding; the
Chinese markers used by the program are unaffected by `lower`). -/
def lowerChars (l : Chars) : Chars :=
  l.map Char.toLower

/-- Model of Python `str.strip()`: remove leading and trailing whitespace. -/
def stripChars (l : Chars) : Chars :=
  ((l.dropWhile pyIsSpace).reverse.dropWhile pyIsSpace).reverse

/-- Model of Python's substring containment `needle in haystack`. -/
def containsSub (needle : Chars) : Chars → Bool
  | [] => needle.isEmpty
  | c :: rest => needle.isPrefixOf (c :: rest) || containsSub needle rest

/-- Model of the regex class `\d` (ASCII decimal digit). -/
def isDigitChar (c : Char) : Bool :=
  '0' ≤ c && c ≤ '9'

def digitVal (c : Char) : Nat :=
  c.toNat - '0'.toNat

/-- Value of a digit run, as computed by Python `int(...)` on the capture. -/
def digitsToNat (ds : Chars) : Nat :=
  ds.foldl (fun a c => a * 10 + digitVal c) 0

/-- Model of the regex class `\w` for the texts this program handles:
ASCII alphanumerics, underscore, and CJK unified ideographs (Python's `\w`
matches Chinese characters). -/
def isWordChar (c : Char) : Bool :=
  ('a' ≤ c && c ≤ 'z') || ('A' ≤ c && c ≤ 'Z') || isDigitChar c || c == '_' ||
    (0x4E00 ≤ c.toNat && c.toNat ≤ 0x9FFF)

/-- The `\b` word boundary to the right of a match: next char absent or
not a word char. -/
def boundaryOk : Chars → Bool
  | [] => true
  | c :: _ => !isWordChar c

/-- One attempt of `label\s*[:：]\s*(\d+)` at the head of `l`
(e.g. the patterns `成功\s*[:：]\s*(\d+)` and `失败\s*[:：]\s*(\d+)` of
`bot.py`). -/
def matchLabeledCountAt (label : Chars) (l : Chars) : Option Nat :=
  if label.isPrefixOf l then
    match (l.drop label.length).dropWhile pyIsSpace with
    | c :: r2 =>
      if c == ':' || c == '：' then
        let ds := (r2.dropWhile pyIsSpace).takeWhile isDigitChar
        if ds.isEmpty then none else some (digitsToNat ds)
      else none
    | [] => none
  else none

/-- `re.search` of `label\s*[:：]\s*(\d+)`: leftmost match wins. -/
def searchLabeledCount (label : Chars) : Chars → Option Nat
  | [] => none
  | c :: rest =>
    match matchLabeledCountAt label (c :: rest) with
    | some n => some n
    | none => searchLabeledCount label rest

/-- The tail `\s*[:：]?\s*(\d+)` of the English count patterns. -/
def matchCountTail (l : Chars) : Option Nat :=
  let r1 := l.dropWhile pyIsSpace
  let r2 := match r1 with
    | c :: rest => if c == ':' || c == '：' then rest.dropWhile pyIsSpace else r1
    | [] => r1
  let ds := r2.takeWhile isDigitChar
  if ds.isEmpty then none else some (digitsToNat ds)

/-- One attempt of `\bsuccess\b\s*[:：]?\s*(\d+)` at the head of `l`;
`prevWord` says whether the preceding character is a word character. -/
def matchSuccessAt (prevWord : Bool) (l : Chars) : Option Nat :=
  if prevWord then none
  else if "success".toList.isPrefixOf l then
    let rest := l.drop 7
    if boundaryOk rest then matchCountTail rest else none
  else none

def searchSuccessEn : Bool → Chars → Option Nat
  | _, [] => none
  | prevWord, c :: rest =>
    match matchSuccessAt prevWord (c :: rest) with
    | some n => some n
    | none => searchSuccessEn (isWordChar c) rest

/-- One attempt of `\bfail(?:ed|ure)?\b\s*[:：]?\s*(\d+)` at the head of
`l`.  At a given start the three alternatives `ed` / `ure` / empty are
mutually exclusive because a word character after `fail` kills the empty
alternative. -/
def matchFailAt (prevWord : Bool) (l : Chars) : Option Nat :=
  if prevWord then none
  else if "fail".toList.isPrefixOf l then
    let rest := l.drop 4
    if "ed".toList.isPrefixOf rest then
      if boundaryOk (rest.drop 2) then matchCountTail (rest.drop 2) else none
    else if "ure".toList.isPrefixOf rest then
      if boundaryOk (rest.drop 3) then matchCountTail (rest.drop 3) else none
    else if boundaryOk rest then matchCountTail rest else none
  else none

def searchFailEn : Bool → Chars → Option Nat
  | _, [] => none
  | prevWord, c :: rest =>
    match matchFailAt prevWord (c :: rest) with
    | some n => some n
    | none => searchFailEn (isWordChar c) rest

/-- The success-count extracted from a text, as computed inside
`is_result_error_message` / `is_claim_success_result` of `bot.py`:
`re.search(r"成功\s*[:：]\s*(\d+)", text) or
 re.search(r"\bsuccess\b\s*[:：]?\s*(\d+)", text.lower())`. -/
def successCountOf (t : Chars) : Option Nat :=
  match searchLabeledCount "成功".toList t with
  | some n => some n
  | none => searchSuccessEn false (lowerChars t)

/-- The failure-count extracted from a text (`失败` pattern, else English
`fail(ed|ure)?` pattern on the lowered text). -/
def failCountOf (t : Chars) : Option Nat :=
  match searchLabeledCount "失败".toList t with
  | some n => some n
  | none => searchFailEn false (lowerChars t)

/-- One attempt of `\s*(?:❌|错误[:：]?|error[:：]?)` (the tail of the
leading-error-marker regex in `is_result_error_message`), with IGNORECASE
on `error`. -/
def matchErrMarkAt (l : Chars) : Bool :=
  let r := l.dropWhile pyIsSpace
  "❌".toList.isPrefixOf r || "错误".toList.isPrefixOf r ||
    "error".toList.isPrefixOf (lowerChars r)

def hasErrMarkAfterNl : Chars → Bool
  | [] => false
  | c :: rest => (c == '\n' && matchErrMarkAt rest) || hasErrMarkAfterNl rest

/-- `re.search(r"(^|\n)\s*(?:❌|错误[:：]?|error[:：]?)", text, re.IGNORECASE)`
is non-none: the marker occurs at the start of the text or right after a
newline (after optional whitespace). -/
def hasErrMark (l : Chars) : Bool :=
  matchErrMarkAt l || hasErrMarkAfterNl l

/-- The auth-marker list shared verbatim by `is_result_error_message` and
`is_token_invalid_result` in `bot.py`. -/
def authMarkers : List Chars :=
  ["unauthorized", "invalid token", "token invalid", "forbidden", "401"].map String.toList

/-- Auth markers checked (against the lowered text) by
`is_mcp_error_message` in `claim_coupons.py`. -/
def mcpAuthMarkers : List Chars :=
  ["unauthorized", "forbidden", "invalid token", "token invalid"].map String.toList

/-- Chinese auth markers checked by `is_result_error_message`. -/
def zhAuthErrMarkers : List Chars :=
  ["Token 无效", "token 无效", "Token已失效", "token已失效", "未授权", "认证失败"].map String.toList

/-- Chinese auth markers checked by `is_token_invalid_result` (no `认证失败`). -/
def zhAuthTokMarkers : List Chars :=
  ["Token 无效", "token 无效", "Token已失效", "token已失效", "未授权"].map String.toList

/-- `is_mcp_error_message` from `claim_coupons.py`. -/
def is_mcp_error_message (s : Chars) : Bool :=
  if s.isEmpty then false
  else
    let text := stripChars s
    let lower := lowerChars text
    containsSub "麦当劳 MCP 服务当前出现异常".toList text ||
    containsSub "麦当劳 MCP 接口返回 429".toList text ||
    mcpAuthMarkers.any (fun m => containsSub m lower) ||
    containsSub "Error: Invalid Token.".toList text

/-- `is_result_error_message` from `bot.py` (the `result is None` Python case
is outside the string model; every early `return True` is a disjunct, and the
final count test returns true iff a positive failure count comes with a zero
or absent success count). -/
def is_result_error_message (s : Chars) : Bool :=
  let text := stripChars s
  if text.isEmpty then true
  else
    let lower := lowerChars text
    is_mcp_error_message text ||
    (containsSub "mcp".toList lower &&
      (containsSub "429".toList lower || containsSub "异常".toList text ||
        containsSub "error".toList lower)) ||
    authMarkers.any (fun m => containsSub m lower) ||
    zhAuthErrMarkers.any (fun m => containsSub m text) ||
    hasErrMark text ||
    (match failCountOf text with
     | some fc =>
       decide (0 < fc) && decide ((successCountOf text).getD 0 = 0)
     | none => false)

/-- `is_token_invalid_result` from `bot.py`. -/
def is_token_invalid_result (s : Chars) : Bool :=
  if s.isEmpty then false
  else
    authMarkers.any (fun m => containsSub m (lowerChars s)) ||
    zhAuthTokMarkers.any (fun m => containsSub m s)

/-- `is_claim_success_result` from `bot.py`. -/
def is_claim_success_result (s : Chars) : Bool :=
  if is_result_error_message s then false
  else
    let sm := successCountOf s
    let fm := failCountOf s
    if sm.isSome || fm.isSome then
      if decide (sm.getD 0 = 0) && decide (0 < fm.getD 0) then false else true
    else true

example : is_claim_success_result "成功: 3, 失败: 0".toList = true := by decide
example : is_result_error_message "失败: 2".toList = true := by decide
example : is_claim_success_result "unauthorized 成功: 3".toList = false := by decide
example : is_token_invalid_result "HTTP 401 Unauthorized".toList = true := by decide
example : successCountOf "success: 12".toList = some 12 := by decide
example : failCountOf "failed: 0".toList = some 0 := by decide

/-! ## Dates: model of Python naive `datetime` as used by `coupon_utils.py` -/

/-- Naive datetime: calendar date plus seconds within the day (the code only
ever subtracts datetimes and compares them, so seconds resolution suffices
for the embedding). -/
structure PyDateTime where
  year : Nat
  month : Nat
  day : Nat
  secOfDay : Nat
deriving DecidableEq, Repr

def isLeapYear (y : Nat) : Bool :=
  (y % 4 == 0 && y % 100 != 0) || y % 400 == 0

def daysInMonth (y m : Nat) : Nat :=
  if m == 2 then (if isLeapYear y then 29 else 28)
  else if m == 4 || m == 6 || m == 9 || m == 11 then 30
  else 31

/-- Python `datetime(year, month, day)` raises `ValueError` outside these
bounds (`MINYEAR = 1`, `MAXYEAR = 9999`). -/
def validYMD (y m d : Nat) : Bool :=
  1 ≤ y && y ≤ 9999 && 1 ≤ m && m ≤ 12 && 1 ≤ d && d ≤ daysInMonth y m

def daysBeforeMonth (y m : Nat) : Nat :=
  (List.range (m - 1)).foldl (fun a i => a + daysInMonth y (i + 1)) 0

/-- Proleptic-Gregorian day number (rata die) of a calendar date. -/
def rataDie (y m d : Nat) : Nat :=
  365 * (y - 1) + (y - 1) / 4 - (y - 1) / 100 + (y - 1) / 400 + daysBeforeMonth y m + d

def dtToSeconds (t : PyDateTime) : Nat :=
  rataDie t.year t.month t.day * 86400 + t.secOfDay

/-- `(a - b).days` for Python datetimes: floor of the difference in days. -/
def timedeltaDays (a b : PyDateTime) : Int :=
  Int.fdiv ((dtToSeconds a : Int) - (dtToSeconds b : Int)) 86400

/-- Python `<` on naive datetimes. -/
def dtLt (a b : PyDateTime) : Bool :=
  dtToSeconds a < dtToSeconds b

def dateOf (t : PyDateTime) : Nat × Nat × Nat :=
  (t.year, t.month, t.day)

/-- `datetime(y, m, d)` (midnight). -/
def mkDate (y m d : Nat) : PyDateTime :=
  ⟨y, m, d, 0⟩

example : timedeltaDays (mkDate 2026 1 20) (mkDate 2026 1 18) = 2 := by decide

/-! ## `parse_expiry_date` (coupon_utils.py) -/

def isDash (c : Char) : Bool :=
  c == '-' || c == '/'

/-- `(\d{1,2})sep`: one or two digits followed by a separator, greedy with
backtracking (two digits are taken only if the separator follows them). -/
def matchD12ThenSep (sep : Char → Bool) : Chars → Option (Nat × Chars)
  | a :: b :: c :: rest =>
    if isDigitChar a && isDigitChar b && sep c then some (digitsToNat [a, b], rest)
    else if isDigitChar a && sep b then some (digitVal a, c :: rest)
    else none
  | [a, b] => if isDigitChar a && sep b then some (digitVal a, []) else none
  | _ => none

/-- A final `(\d{1,2})`: greedily take up to two digits. -/
def matchD12Final : Chars → Option Nat
  | a :: b :: _ =>
    if isDigitChar a && isDigitChar b then some (digitsToNat [a, b])
    else if isDigitChar a then some (digitVal a) else none
  | [a] => if isDigitChar a then some (digitVal a) else none
  | [] => none

/-- One attempt of `(\d{4})(\d{1,2})(\d{1,2})` with `-` or `/` separators, at the head of `l`. -/
def matchYMDAt (l : Chars) : Option (Nat × Nat × Nat) :=
  match l with
  | a :: b :: c :: d :: e :: rest =>
    if isDigitChar a && isDigitChar b && isDigitChar c && isDigitChar d && isDash e then
      match matchD12ThenSep isDash rest with
      | some (m, r2) =>
        match matchD12Final r2 with
        | some dd => some (digitsToNat [a, b, c, d], m, dd)
        | none => none
      | none => none
    else none
  | _ => none

def searchYMD : Chars → Option (Nat × Nat × Nat)
  | [] => none
  | c :: rest =>
    match matchYMDAt (c :: rest) with
    | some r => some r
    | none => searchYMD rest

/-- One attempt of `(\d{1,2})月\s*(\d{1,2})日` at the head of `l`. -/
def matchMonthDayAt (l : Chars) : Option (Nat × Nat) :=
  match matchD12ThenSep (fun c => c == '月') l with
  | some (m, r) =>
    match matchD12ThenSep (fun c => c == '日') (r.dropWhile pyIsSpace) with
    | some (d, _) => some (m, d)
    | none => none
  | none => none

def searchMonthDay : Chars → Option (Nat × Nat)
  | [] => none
  | c :: rest =>
    match matchMonthDayAt (c :: rest) with
    | some r => some r
    | none => searchMonthDay rest

/-- The year-inference step of `parse_expiry_date` for month/day-only dates:
use the current year; if that date is already past, use next year.  Either
`datetime(...)` call may raise `ValueError` (modelled as `none`), in which
case the source falls through to the next pattern. -/
def resolveMonthDay (now : PyDateTime) (m d : Nat) : Option PyDateTime :=
  if validYMD now.year m d then
    let date := mkDate now.year m d
    if dtLt date now then
      if validYMD (now.year + 1) m d then some (mkDate (now.year + 1) m d) else none
    else some date
  else none

/-- One attempt of
`(?:有效期|有效期至|有效期到|有效期为|有效期截止), non-digits, then the dashed (\d{4})(\d{1,2})(\d{1,2}) tail`:
the first alternative `有效期` is a prefix of all the others and `[^\d]*`
absorbs the rest, so the attempt reduces to: `有效期`, skip non-digits, then
the dated tail. -/
def matchYouxiaoYMDAt (l : Chars) : Option (Nat × Nat × Nat) :=
  if "有效期".toList.isPrefixOf l then
    matchYMDAt ((l.drop 3).dropWhile (fun c => !isDigitChar c))
  else none

def searchYouxiaoYMD : Chars → Option (Nat × Nat × Nat)
  | [] => none
  | c :: rest =>
    match matchYouxiaoYMDAt (c :: rest) with
    | some r => some r
    | none => searchYouxiaoYMD rest

/-- One attempt of `(?:有效期|...)`, non-digits, then `(\d{1,2})(\d{1,2})` with a `-` or `/` separator. -/
def matchYouxiaoMDAt (l : Chars) : Option (Nat × Nat) :=
  if "有效期".toList.isPrefixOf l then
    match matchD12ThenSep isDash ((l.drop 3).dropWhile (fun c => !isDigitChar c)) with
    | some (m, r2) => (matchD12Final r2).map (fun d => (m, d))
    | none => none
  else none

def searchYouxiaoMD : Chars → Option (Nat × Nat)
  | [] => none
  | c :: rest =>
    match matchYouxiaoMDAt (c :: rest) with
    | some r => some r
    | none => searchYouxiaoMD rest

/-- `parse_expiry_date` from `coupon_utils.py`.  The ambient clock
`get_cst_now()` is the parameter `now`; each `except ValueError: pass`
falls through to the next pattern. -/
def parse_expiry_date (now : PyDateTime) (l : Chars) : Option PyDateTime :=
  let p1 := match searchYMD l with
    | some (y, m, d) => if validYMD y m d then some (mkDate y m d) else none
    | none => none
  match p1 with
  | some dt => some dt
  | none =>
    let p2 := match searchMonthDay l with
      | some (m, d) => resolveMonthDay now m d
      | none => none
    match p2 with
    | some dt => some dt
    | none =>
      let p3 := match searchYouxiaoYMD l with
        | some (y, m, d) => if validYMD y m d then some (mkDate y m d) else none
        | none => none
      match p3 with
      | some dt => some dt
      | none =>
        match searchYouxiaoMD l with
        | some (m, d) => resolveMonthDay now m d
        | none => none

example : parse_expiry_date (mkDate 2026 1 18) "- 有效期：2026-01-20".toList =
    some (mkDate 2026 1 20) := by decide
example : parse_expiry_date ⟨2026, 1, 18, 3600⟩ "1月25日".toList =
    some (mkDate 2026 1 25) := by decide
example : parse_expiry_date ⟨2026, 1, 18, 3600⟩ "1月3日过期".toList =
    some (mkDate 2027 1 3) := by decide
example : parse_expiry_date (mkDate 2026 1 18) "有效期至 02-10".toList =
    some (mkDate 2026 2 10) := by decide
example : parse_expiry_date (mkDate 2026 1 18) "没有日期".toList = none := by decide

/-! ## Text cleaning and name extraction helpers (coupon_utils.py) -/

/-- Remove every occurrence of `pat` (left to right, non-overlapping), as in
Python `str.replace(pat, "")`.  The `fuel` argument only bounds the
recursion; it never runs out when initialised with the length of the list. -/
def replaceAllSubFuel (pat : Chars) : Nat → Chars → Chars
  | _, [] => []
  | 0, l => l
  | fuel + 1, c :: rest =>
    if !pat.isEmpty && pat.isPrefixOf (c :: rest) then
      replaceAllSubFuel pat fuel (rest.drop (pat.length - 1))
    else c :: replaceAllSubFuel pat fuel rest

def replaceAllSub (pat l : Chars) : Chars :=
  replaceAllSubFuel pat l.length l

/-- `clean_markdown_text` from `coupon_utils.py` (string case): remove
`**`, `__`, `*`, backtick and backslash, in that order, then strip. -/
def clean_markdown_text (l : Chars) : Chars :=
  stripChars (replaceAllSub ['\\']
    (replaceAllSub ['`']
      (replaceAllSub ['*']
        (replaceAllSub ['_', '_']
          (replaceAllSub ['*', '*'] l)))))

/-- Lazy scan to the first `有效` (the `.*?有效` part of the paren-stripping
regex); `.` does not cross a newline.  Returns the remainder after `有效`. -/
def scanToYouxiao : Chars → Option Chars
  | [] => none
  | c :: rest =>
    if "有效".toList.isPrefixOf (c :: rest) then some ((c :: rest).drop 2)
    else if c == '\n' then none
    else scanToYouxiao rest

/-- Lazy scan to the first closing paren (ASCII or fullwidth), not crossing
a newline.  Returns the remainder after it. -/
def scanToCloseParen : Chars → Option Chars
  | [] => none
  | c :: rest =>
    if c == ')' || c == '）' then some rest
    else if c == '\n' then none
    else scanToCloseParen rest

/-- `re.sub` of the pattern "opening paren, lazily to `有效`, lazily to a
closing paren" with the empty string (drops parenthesised expiry notes).
`fuel` only bounds the recursion. -/
def removeParenYouxiaoFuel : Nat → Chars → Chars
  | _, [] => []
  | 0, l => l
  | fuel + 1, c :: rest =>
    if c == '(' || c == '（' then
      match scanToYouxiao rest with
      | some r1 =>
        match scanToCloseParen r1 with
        | some r2 => removeParenYouxiaoFuel fuel r2
        | none => c :: removeParenYouxiaoFuel fuel rest
      | none => c :: removeParenYouxiaoFuel fuel rest
    else c :: removeParenYouxiaoFuel fuel rest

def removeParenYouxiao (l : Chars) : Chars :=
  removeParenYouxiaoFuel l.length l

/-- Prefix of `l` before the first occurrence of `pat` (Python
`re.split(pat + '.*', l)[0]` for a literal `pat`, i.e. everything before
the first match). -/
def takeBeforeSub (pat : Chars) : Chars → Chars
  | [] => []
  | c :: rest => if pat.isPrefixOf (c :: rest) then [] else c :: takeBeforeSub pat rest

/-- The leading characters removed by `re.sub` of "start, then runs of
whitespace, `-`, `•` or `*`". -/
def isBulletChar (c : Char) : Bool :=
  pyIsSpace c || c == '-' || c == '•' || c == '*'

/-- Collapse whitespace runs to a single space (`re.sub` of one-or-more
whitespace with a single space). -/
def collapseWsAux : Bool → Chars → Chars
  | _, [] => []
  | prevWs, c :: rest =>
    if pyIsSpace c then
      (if prevWs then [] else [' ']) ++ collapseWsAux true rest
    else c :: collapseWsAux false rest

def collapseWs (l : Chars) : Chars :=
  collapseWsAux false l

/-- `_normalize_coupon_name` from `coupon_utils.py`. -/
def _normalize_coupon_name (name : Chars) : Chars :=
  let n0 := clean_markdown_text name
  let n1 := stripChars (removeParenYouxiao n0)
  let n2 := if containsSub "有效期".toList n1 then stripChars (takeBeforeSub "有效期".toList n1) else n1
  stripChars (collapseWs (n2.dropWhile isBulletChar))

/-- `_META_LABELS` from `coupon_utils.py`. -/
def metaLabels : List Chars :=
  ["有效期", "状态", "券码", "券号", "使用规则", "图片", "链接", "价格", "用券价格",
   "coupon", "code"].map String.toList

/-- `_is_metadata_label` from `coupon_utils.py`. -/
def _is_metadata_label (t : Chars) : Bool :=
  t.isEmpty || metaLabels.any (fun kw => containsSub (lowerChars kw) (lowerChars t))

/-- `_GENERIC_NAMES` from `coupon_utils.py`. -/
def genericNames : List Chars :=
  ["优惠", "优惠券", "优惠券标题", "优惠券名称", "券"].map String.toList

/-- The `¥\d+(\.\d+)?$` tail of `_PRICE_ONLY_RE`, applied to a
whitespace-free string. -/
def matchPriceTail : Chars → Bool
  | c :: rest =>
    c == '¥' &&
      (let ds := rest.takeWhile isDigitChar
       !ds.isEmpty &&
         (match rest.dropWhile isDigitChar with
          | [] => true
          | p :: r2 => p == '.' && !r2.isEmpty && r2.all isDigitChar))
  | [] => false

/-- `_is_generic_coupon_name` from `coupon_utils.py`: empty, a known generic
label, a bare price (after removing whitespace, an optional `优惠`/`特惠`
prefix then `¥` and a number), or the literal word coupon(s). -/
def _is_generic_coupon_name (name : Chars) : Bool :=
  name.isEmpty ||
  genericNames.contains name ||
  (let compact := name.filter (fun c => !pyIsSpace c)
   matchPriceTail compact ||
     ("优惠".toList.isPrefixOf compact && matchPriceTail (compact.drop 2)) ||
     ("特惠".toList.isPrefixOf compact && matchPriceTail (compact.drop 2))) ||
  lowerChars name == "coupon".toList || lowerChars name == "coupons".toList

/-- Case-insensitive literal prefix test (the name/code patterns carry
`re.I`); `pat` is given pre-lowered. -/
def ciIsPrefixOf (pat l : Chars) : Bool :=
  pat.isPrefixOf (lowerChars (l.take pat.length))

/-- The alternation of `_NAME_PATTERNS`, in source order. -/
def nameLabels : List Chars :=
  ["优惠券标题", "优惠券名称", "优惠名称", "标题", "名称", "券名", "商品名称",
   "title", "name"].map String.toList

/-- The tail `\s*[:：]\s*(.+)` of the labeled-field patterns, on a single
line (no newline present).  If everything after the colon is whitespace,
backtracking makes `(.+)` capture the last whitespace character. -/
def matchColonCapture (l : Chars) : Option Chars :=
  match l.dropWhile pyIsSpace with
  | c :: r2 =>
    if c == ':' || c == '：' then
      let t := r2.dropWhile pyIsSpace
      if !t.isEmpty then some t
      else if !r2.isEmpty then some (r2.drop (r2.length - 1))
      else none
    else none
  | [] => none

/-- One attempt of the `_NAME_PATTERNS` regex at the head of `l`: first
label (in alternation order) whose colon-and-capture tail also matches. -/
def matchNamePatAt (l : Chars) : Option Chars :=
  nameLabels.findSome? (fun lab =>
    if ciIsPrefixOf lab l then matchColonCapture (l.drop lab.length) else none)

def searchNamePat : Chars → Option Chars
  | [] => none
  | c :: rest =>
    match matchNamePatAt (c :: rest) with
    | some g => some g
    | none => searchNamePat rest

/-- Existence of `¥\s*\d+` (the optional decimal part of the `price_like`
regex cannot turn a match into a non-match). -/
def matchPriceLikeAt : Chars → Bool
  | c :: rest => c == '¥' && !((rest.dropWhile pyIsSpace).takeWhile isDigitChar).isEmpty
  | [] => false

def searchPriceLike : Chars → Bool
  | [] => false
  | c :: rest => matchPriceLikeAt (c :: rest) || searchPriceLike rest

/-- Witness search for `^([^:：]{2,80})\s*[:：]` on `pre`, the maximal
colon-free prefix: the group is the longest k ≤ 80 characters of `pre`
whose complement in `pre` is all whitespace (greedy with backtracking),
with k ≥ 2. -/
def nameColonK (pre : Chars) : Nat → Option Chars
  | 0 => none
  | k + 1 =>
    if decide (2 ≤ k + 1) && (pre.drop (k + 1)).all pyIsSpace then some (pre.take (k + 1))
    else nameColonK pre k

/-- `re.match` of `^([^:：]{2,80})\s*[:：]`. -/
def matchNameColon (l : Chars) : Option Chars :=
  let pre := l.takeWhile (fun c => !(c == ':' || c == '：'))
  if pre.length == l.length then none
  else nameColonK pre (min 80 pre.length)

/-- Date-shape test `\d{4}` dash `\d{1,2}` dash `\d{1,2}` used by the
bullet fallback (same shape as the first pattern of `parse_expiry_date`). -/
def bulletFallback (line stripped : Chars) : Chars :=
  let ls := line.dropWhile pyIsSpace
  let isBullet := match ls with
    | c :: _ => c == '-' || c == '*' || c == '•'
    | [] => false
  if isBullet then
    if !stripped.isEmpty && decide (stripped.length ≤ 80) && !_is_metadata_label stripped then
      if (searchYMD stripped).isNone then stripped else []
    else []
  else []

/-- Stages of `_extract_coupon_name_from_line` after the labeled-field
pattern: markdown heading, then generic `name:` prefix, then bullet
fallback.  `stripped` is the bullet-stripped clean line (possibly rebound
by the price branch in the caller). -/
def nameTail2 (line stripped : Chars) : Chars :=
  let fromHash :=
    if "##".toList.isPrefixOf stripped then
      let name := _normalize_coupon_name (stripChars (stripped.dropWhile (fun c => c == '#')))
      if !name.isEmpty && !_is_metadata_label name then some name else none
    else none
  match fromHash with
  | some n => n
  | none =>
    let fromColon := match matchNameColon stripped with
      | some g =>
        let name := _normalize_coupon_name g
        if !name.isEmpty && !_is_metadata_label name then some name else none
      | none => none
    match fromColon with
    | some n => n
    | none => bulletFallback line stripped

/-- The price-like branch of `_extract_coupon_name_from_line`; note the
source rebinds `stripped` inside the branch. -/
def nameExtractTail (line clean_line : Chars) (price_like : Bool) : Chars :=
  let stripped := clean_line.dropWhile isBulletChar
  if price_like && decide (stripped.length ≤ 80) && !_is_metadata_label stripped then
    let s2 := stripChars (removeParenYouxiao stripped)
    if !s2.isEmpty then _normalize_coupon_name s2 else nameTail2 line s2
  else nameTail2 line stripped

/-- `_extract_coupon_name_from_line` from `coupon_utils.py`. -/
def _extract_coupon_name_from_line (line : Chars) : Chars :=
  if line.isEmpty then []
  else
    let clean_line := clean_markdown_text line
    let price_like := searchPriceLike clean_line
    let fromPat := match searchNamePat clean_line with
      | some g =>
        let name := _normalize_coupon_name g
        if !name.isEmpty && !_is_metadata_label name then some name else none
      | none => none
    match fromPat with
    | some n => n
    | none => nameExtractTail line clean_line price_like

/-- Remainder after the first occurrence of the character `ch`
(Python `s.split(ch, 1)[1]`). -/
def afterFirstChar (ch : Char) : Chars → Chars
  | [] => []
  | c :: rest => if c == ch then rest else afterFirstChar ch rest

/-- The cut alternation `有效期`, `有效至`, `(`, `（` used by the detail
extractors (`re.split`, first piece). -/
def detailCutPats : List Chars :=
  ["有效期", "有效至", "(", "（"].map String.toList

def takeBeforeAnyPat (pats : List Chars) : Chars → Chars
  | [] => []
  | c :: rest =>
    if pats.any (fun p => p.isPrefixOf (c :: rest)) then []
    else c :: takeBeforeAnyPat pats rest

/-- `_extract_detail_from_line` from `coupon_utils.py`. -/
def _extract_detail_from_line (line : Chars) : Chars :=
  if line.isEmpty then []
  else
    let cl := clean_markdown_text line
    let d0 : Option Chars :=
      if cl.contains ':' then some (afterFirstChar ':' cl)
      else if cl.contains '：' then some (afterFirstChar '：' cl)
      else none
    match d0 with
    | none => []
    | some d =>
      let d2 := stripChars (takeBeforeAnyPat detailCutPats (stripChars d))
      if decide (d2.length < 2) then [] else d2

/-- The alternation of `_DETAIL_PATTERN` (no IGNORECASE in the source for
these Chinese labels). -/
def detailLabels : List Chars :=
  ["内容", "描述", "适用", "商品", "套餐", "说明"].map String.toList

def matchDetailPatAt (l : Chars) : Option Chars :=
  detailLabels.findSome? (fun lab =>
    if lab.isPrefixOf l then matchColonCapture (l.drop lab.length) else none)

def searchDetailPat : Chars → Option Chars
  | [] => none
  | c :: rest =>
    match matchDetailPatAt (c :: rest) with
    | some g => some g
    | none => searchDetailPat rest

/-- `_extract_descriptive_detail` from `coupon_utils.py`. -/
def _extract_descriptive_detail (line : Chars) : Chars :=
  if line.isEmpty then []
  else
    match searchDetailPat (clean_markdown_text line) with
    | none => []
    | some g =>
      let d2 := stripChars (takeBeforeAnyPat detailCutPats (stripChars g))
      if decide (d2.length < 2) then [] else d2

/-- Labels of the coupon-code pattern (IGNORECASE; pre-lowered). -/
def codeLabels : List Chars :=
  ["couponcode", "couponid", "券码", "券号", "兑换码"].map String.toList

def isCodeChar (c : Char) : Bool :=
  ('a' ≤ c && c ≤ 'z') || ('A' ≤ c && c ≤ 'Z') || isDigitChar c || c == '-'

/-- The tail `\s*[:：]\s*([A-Za-z0-9-]{3,})` of the code pattern. -/
def matchCodeTail (l : Chars) : Option Chars :=
  match l.dropWhile pyIsSpace with
  | c :: r2 =>
    if c == ':' || c == '：' then
      let run := (r2.dropWhile pyIsSpace).takeWhile isCodeChar
      if decide (3 ≤ run.length) then some run else none
    else none
  | [] => none

def matchCodeAt (l : Chars) : Option Chars :=
  codeLabels.findSome? (fun lab =>
    if ciIsPrefixOf lab l then matchCodeTail (l.drop lab.length) else none)

def searchCodePat : Chars → Option Chars
  | [] => none
  | c :: rest =>
    match matchCodeAt (c :: rest) with
    | some g => some g
    | none => searchCodePat rest

/-- `_extract_coupon_code` from `coupon_utils.py` (applied to the raw line). -/
def _extract_coupon_code (line : Chars) : Chars :=
  if line.isEmpty then []
  else
    match searchCodePat line with
    | some code => code
    | none => []

example : _extract_coupon_name_from_line "- 优惠券标题：半价汉堡".toList =
    "半价汉堡".toList := by decide
example : _extract_coupon_name_from_line "- 有效期：2026-01-20".toList = [] := by decide
example : _extract_coupon_code "券码: ABC-123".toList = "ABC-123".toList := by decide
example : _is_generic_coupon_name "优惠券".toList = true := by decide
example : _is_generic_coupon_name "半价汉堡".toList = false := by decide
example : _is_generic_coupon_name "优惠 ¥15".toList = true := by decide
example : _extract_descriptive_detail "套餐：双层牛肉堡套餐".toList =
    "双层牛肉堡套餐".toList := by decide

/-! ## `check_expiring_soon` (coupon_utils.py) -/

/-- The accumulator dict of `check_expiring_soon`: name, raw line, optional
code, and (once an expiry line is seen) expiry date, `days_left` and the
index of the expiry line. -/
structure Coupon where
  name : Chars
  raw_text : Chars
  code : Option Chars
  expiry : Option (PyDateTime × Int × Nat)
deriving DecidableEq, Repr

/-- Python `str.splitlines()` restricted to the `\n`, `\r\n`, `\r`
terminators. -/
def splitLinesAux : Chars → Chars → List Chars
  | curLine, [] => if curLine.isEmpty then [] else [curLine.reverse]
  | curLine, '\r' :: '\n' :: rest => curLine.reverse :: splitLinesAux [] rest
  | curLine, '\n' :: rest => curLine.reverse :: splitLinesAux [] rest
  | curLine, '\r' :: rest => curLine.reverse :: splitLinesAux [] rest
  | curLine, c :: rest => splitLinesAux (c :: curLine) rest

def splitLines (l : Chars) : List Chars :=
  splitLinesAux [] l

/-- Blank line: flush the accumulator if it has an expiry date. -/
def flushBlank (st : Option Coupon × List Coupon) : Option Coupon × List Coupon :=
  match st.1 with
  | some c => if c.expiry.isSome then (none, st.2 ++ [c]) else st
  | none => st

/-- The name-candidate block of the loop body: upgrade a generic name in
place, or flush the accumulator and start a new one. -/
def applyName (nc line : Chars) (st : Option Coupon × List Coupon) : Option Coupon × List Coupon :=
  if nc.isEmpty then st
  else
    match st.1 with
    | some c =>
      if c.expiry.isSome && _is_generic_coupon_name c.name && !_is_generic_coupon_name nc then
        (some { c with name := nc, raw_text := line }, st.2)
      else (some { name := nc, raw_text := line, code := none, expiry := none }, st.2 ++ [c])
    | none => (some { name := nc, raw_text := line, code := none, expiry := none }, st.2)

/-- The code block of the loop body. -/
def applyCode (line : Chars) (cur : Option Coupon) : Option Coupon :=
  let code := _extract_coupon_code line
  match cur with
  | some c => if !code.isEmpty then some { c with code := some code } else some c
  | none => none

/-- The generic-name detail-merge block of the loop body. -/
def applyDetail (line : Chars) (cur : Option Coupon) : Option Coupon :=
  match cur with
  | some c =>
    if _is_generic_coupon_name c.name then
      let d1 := _extract_descriptive_detail line
      let detail := if !d1.isEmpty then d1 else _extract_detail_from_line line
      if !detail.isEmpty && !containsSub detail c.name then
        some { c with name := stripChars (c.name ++ ' ' :: detail) }
      else some c
    else some c
  | none => none

/-- The expiry block of the loop body: `days_left = (expiry - now).days`
with the single `now` taken at the start of the pass. -/
def applyExpiry (now : PyDateTime) (idx : Nat) (nc line : Chars)
    (st : Option Coupon × List Coupon) : Option Coupon × List Coupon :=
  match parse_expiry_date now line with
  | some e =>
    let c0 := match st.1 with
      | some c => c
      | none => { name := nc, raw_text := line, code := none, expiry := none }
    (some { c0 with expiry := some (e, timedeltaDays e now, idx) }, st.2)
  | none => st

/-- One iteration of the line loop of `check_expiring_soon`. -/
def processLine (now : PyDateTime) (idx : Nat) (rawLine : Chars)
    (st : Option Coupon × List Coupon) : Option Coupon × List Coupon :=
  let line := stripChars rawLine
  if line.isEmpty then flushBlank st
  else
    let nc := _extract_coupon_name_from_line line
    let st1 := applyName nc line st
    applyExpiry now idx nc line (applyDetail line (applyCode line st1.1), st1.2)

/-- `check_expiring_soon` from `coupon_utils.py`; `now` is the single
`get_cst_now()` value of the pass (made naive). -/
def check_expiring_soon (now : PyDateTime) (days_threshold : Int) (text : Chars) : List Coupon :=
  let st := (splitLines text).enum.foldl (fun s p => processLine now p.1 p.2 s) (none, [])
  (flushBlank st).2.filter (fun c =>
    match c.expiry with
    | some (_, dl, _) => decide (0 ≤ dl) && decide (dl ≤ days_threshold)
    | none => false)

/-- The raw text of end-to-end scenario A. -/
def scenarioAText : String :=
  "- 优惠券标题：半价汉堡\n- 有效期：2026-01-20"

/-- The single record scenario A extracts. -/
def scenarioACoupon : Coupon :=
  { name := "半价汉堡".toList
    raw_text := "- 优惠券标题：半价汉堡".toList
    code := none
    expiry := some (mkDate 2026 1 20, 2, 1) }

example : check_expiring_soon (mkDate 2026 1 18) 3 scenarioAText.toList =
    [scenarioACoupon] := by decide
example : check_expiring_soon (mkDate 2026 1 18) 1 scenarioAText.toList = [] := by decide

/-! ## `analyze_coupon_value` (coupon_utils.py) -/

/-- `analyze_coupon_value` from `coupon_utils.py`: base 50, fixed keyword
weights, capped at 100. -/
def analyze_coupon_value (coupon_text : Chars) : Int :=
  let text := lowerChars coupon_text
  let score : Int := 50
  let score := if containsSub "免费".toList text || containsSub "0元".toList text then
      score + 50 else score
  let score := if containsSub "买一送一".toList text || containsSub "1+1".toList text ||
      containsSub "买1送1".toList text then score + 40 else score
  let score := if containsSub "半价".toList text || containsSub "5折".toList text then
      score + 35 else score
  let score := if ["19.9", "29.9", "39.9"].any (fun w => containsSub w.toList text) then
      score + 25 else score
  let score := if ["9.9", "6.9", "4.9"].any (fun w => containsSub w.toList text) then
      score + 15 else score
  let score := if ["巨无霸", "麦辣鸡腿堡", "薯条", "汉堡"].any (fun w => containsSub w.toList text) then
      score + 10 else score
  let score := if containsSub "限时".toList text || containsSub "今日".toList text then
      score + 5 else score
  min score 100

example : analyze_coupon_value "".toList = 50 := by decide
example : analyze_coupon_value "免费薯条".toList = 100 := by decide
example : analyze_coupon_value "半价汉堡".toList = 95 := by decide
example : analyze_coupon_value "9.9元麦辣鸡腿堡 限时".toList = 80 := by decide

/-! ## Per-tenant dispatch step `process_user_claim` (bot.py) -/

/-- The persisted per-user record (nullable SQL columns modelled as
`Option`; `last_claim_at` stores the datetime written by
`update_claim_stats`). -/
structure UserState where
  auto_claim_enabled : Option Int
  claim_report_enabled : Option Int
  last_claim_at : Option PyDateTime
  last_claim_success : Option Int
  total_success : Option Int
  total_failed : Option Int
deriving DecidableEq, Repr

/-- `_coerce_date` from `bot.py` on the stored value (datetime case; the
string case parses to the same date and `None` stays `None`). -/
def _coerce_date (v : Option PyDateTime) : Option (Nat × Nat × Nat) :=
  v.map dateOf

/-- `update_claim_stats` from `bot.py`: stamp `last_claim_at` with the
current time, record the success bit, bump the counters (`None` counters
coalesce to 0). -/
def update_claim_stats (now : PyDateTime) (success : Bool) :
    Option UserState → Option UserState
  | some u => some { u with
      last_claim_at := some now
      last_claim_success := some (if success then 1 else 0)
      total_success := some (u.total_success.getD 0 + (if success then 1 else 0))
      total_failed := some (u.total_failed.getD 0 + (if success then 0 else 1)) }
  | none => none

/-- `set_auto_claim_enabled` from `bot.py`. -/
def set_auto_claim_enabled (enabled : Bool) : Option UserState → Option UserState :=
  Option.map (fun u => { u with auto_claim_enabled := some (if enabled then 1 else 0) })

/-- Kinds of notification message `process_user_claim` can send (the body
always embeds the remote result; the kind records which warning or closing
remark is appended). -/
inductive MsgKind where
  | tokenInvalidWarn
  | transientErrWarn
  | successQuote
  | plain
deriving DecidableEq, Repr

/-- Outcome of one per-tenant task: whether the idempotency check skipped
it, whether the remote call was made, the stored state afterwards, and the
notifications sent. -/
structure ClaimRunResult where
  skipped : Bool
  remote_called : Bool
  state : Option UserState
  sent : List MsgKind
deriving DecidableEq, Repr

/-- The idempotency guard at the top of `process_user_claim`:
`last_claim_success == 1` and `_coerce_date(last_claim_at)` equals today's
CST date. -/
def shouldSkip (now : PyDateTime) : Option UserState → Bool
  | some u =>
    decide (u.last_claim_success = some 1) &&
      decide (_coerce_date u.last_claim_at = some (dateOf now))
  | none => false

/-- `process_user_claim` from `bot.py`, as a state transition.  `now` is
the ambient CST clock, `st` the stored row, `rep` the
`claim_report_enabled` column, and `res` the text returned by the remote
call `claim_for_token` (abstracted as an input). -/
def process_user_claim (now : PyDateTime) (st : Option UserState) (rep : Option Int)
    (res : Chars) : ClaimRunResult :=
  if shouldSkip now st then
    { skipped := true, remote_called := false, state := st, sent := [] }
  else
    let success := is_claim_success_result res
    let token_invalid := is_token_invalid_result res
    let st1 := update_claim_stats now success st
    let st2 := if token_invalid then set_auto_claim_enabled false st1 else st1
    let sent := if rep = none ∨ rep = some 1 then
        [if token_invalid then MsgKind.tokenInvalidWarn
         else if is_result_error_message res then MsgKind.transientErrWarn
         else if success then MsgKind.successQuote
         else MsgKind.plain]
      else []
    { skipped := false, remote_called := true, state := st2, sent := sent }

/-! ## Retry wrapper `_request_mcp_with_retry` (claim_coupons.py) -/

/-- One attempt of the MCP exchange either returns a value or raises an
exception carrying a message. -/
inductive AttemptOutcome where
  | ok (v : String)
  | exc (msg : String)
deriving DecidableEq, Repr

inductive RetryResult where
  | value (v : String)
  | raised (msg : String)
deriving DecidableEq, Repr

/-- tenacity `wait_exponential(multiplier, min, max)`:
`clamp(multiplier * 2 ^ (attempt_number - 1))` into `[min, max]`. -/
def waitExponential (multiplier minW maxW attempt_number : Nat) : Nat :=
  max (max 0 minW) (min (multiplier * 2 ^ (attempt_number - 1)) maxW)

/-- The tenacity retry loop: run attempt `attemptNo`; on an exception,
retry while retries remain, waiting `wait_exponential(1, 1, 10)` in
between.  tenacity's default retry predicate accepts every exception; the
decorator in the source supplies no `retry=` filter.  Returns the final
result, the number of attempts made, and the waits performed. -/
def retryRunAux (attempts : Nat → AttemptOutcome) : Nat → Nat → RetryResult × Nat × List Nat
  | remaining, attemptNo =>
    match attempts attemptNo, remaining with
    | .ok v, _ => (.value v, attemptNo, [])
    | .exc m, 0 => (.raised m, attemptNo, [])
    | .exc _, r + 1 =>
      let res := retryRunAux attempts r (attemptNo + 1)
      (res.1, res.2.1, waitExponential 1 1 10 attemptNo :: res.2.2)

/-- `stop_after_attempt(3)` in the decorator. -/
def stopAfterAttempt : Nat := 3

/-- `_request_mcp_with_retry` from `claim_coupons.py`: attempts start at 1
and stop once `attempt_number` reaches `stop_after_attempt(3)`, so at most
`stopAfterAttempt - 1` retries follow the first attempt. -/
def _request_mcp_with_retry (attempts : Nat → AttemptOutcome) : RetryResult × Nat × List Nat :=
  retryRunAux attempts (stopAfterAttempt - 1) 1

example :
    _request_mcp_with_retry (fun _ => .exc "boom") = (.raised "boom", 3, [1, 2]) := by decide
example :
    _request_mcp_with_retry (fun _ => .ok "fine") = (.value "fine", 1, []) := by decide

/-! ## Support lemmas about substring containment and stripping -/

theorem isPrefixOf_iff_exists (p : Chars) : ∀ l, p.isPrefixOf l = true ↔ ∃ t, l = p ++ t := by
  induction p with
  | nil => intro l; simp [List.isPrefixOf]
  | cons a as ih =>
    intro l
    cases l with
    | nil => simp [List.isPrefixOf]
    | cons b bs =>
      simp only [List.isPrefixOf, Bool.and_eq_true, beq_iff_eq, ih bs, List.cons_append]
      constructor
      · rintro ⟨rfl, t, rfl⟩; exact ⟨t, rfl⟩
      · rintro ⟨t, h⟩
        injection h with h1 h2
        exact ⟨h1.symm, t, h2⟩

theorem containsSub_iff (m : Chars) : ∀ l, containsSub m l = true ↔ ∃ a b, l = a ++ m ++ b := by
  intro l
  induction l with
  | nil =>
    simp only [containsSub, List.isEmpty_iff]
    constructor
    · rintro rfl; exact ⟨[], [], rfl⟩
    · rintro ⟨a, b, h⟩
      rcases List.append_eq_nil.mp h.symm with ⟨h1, h2⟩
      exact (List.append_eq_nil.mp h1).2
  | cons c rest ih =>
    simp only [containsSub, Bool.or_eq_true, isPrefixOf_iff_exists, ih]
    constructor
    · rintro (⟨t, h⟩ | ⟨a, b, h⟩)
      · exact ⟨[], t, by simpa using h⟩
      · exact ⟨c :: a, b, by simp [h]⟩
    · rintro ⟨a, b, h⟩
      cases a with
      | nil => exact Or.inl ⟨b, by simpa using h⟩
      | cons x xs =>
        injection h with h1 h2
        exact Or.inr ⟨xs, b, h2⟩

theorem containsSub_append_outer (m x a b : Chars) (h : containsSub m x = true) :
    containsSub m (a ++ x ++ b) = true := by
  rcases (containsSub_iff m x).mp h with ⟨u, v, rfl⟩
  exact (containsSub_iff m _).mpr ⟨a ++ u, v ++ b, by simp⟩

theorem dropWhile_decomp (p : Char → Bool) : ∀ l : Chars, ∃ u, l = u ++ l.dropWhile p := by
  intro l
  induction l with
  | nil => exact ⟨[], rfl⟩
  | cons c rest ih =>
    by_cases h : p c
    · rcases ih with ⟨u, hu⟩
      refine ⟨c :: u, ?_⟩
      rw [List.dropWhile_cons, if_pos h, List.cons_append, ← hu]
    · exact ⟨[], by rw [List.dropWhile_cons, if_neg h, List.nil_append]⟩

theorem strip_decomp (l : Chars) : ∃ u v, l = u ++ stripChars l ++ v := by
  obtain ⟨u, hu⟩ := dropWhile_decomp pyIsSpace l
  obtain ⟨w, hw⟩ := dropWhile_decomp pyIsSpace (l.dropWhile pyIsSpace).reverse
  refine ⟨u, w.reverse, ?_⟩
  calc l = u ++ l.dropWhile pyIsSpace := hu
    _ = u ++ ((l.dropWhile pyIsSpace).reverse).reverse := by rw [List.reverse_reverse]
    _ = u ++ (w ++ ((l.dropWhile pyIsSpace).reverse.dropWhile pyIsSpace)).reverse := by
          rw [← hw]
    _ = u ++ (((l.dropWhile pyIsSpace).reverse.dropWhile pyIsSpace).reverse ++ w.reverse) := by
          rw [List.reverse_append]
    _ = u ++ stripChars l ++ w.reverse := by rw [stripChars, List.append_assoc]

theorem containsSub_lower_strip {m l : Chars}
    (h : containsSub m (lowerChars (stripChars l)) = true) :
    containsSub m (lowerChars l) = true := by
  obtain ⟨u, v, hl⟩ := strip_decomp l
  have hmap : lowerChars l =
      lowerChars u ++ lowerChars (stripChars l) ++ lowerChars v := by
    conv_lhs => rw [hl]
    simp [lowerChars, List.map_append]
  rw [hmap]
  exact containsSub_append_outer _ _ _ _ h

/-! ## Claims C1–C3 -/

/-- Claim C1, as stated, is false: the text `unauthorized 成功: 3` carries a
success-count of 3 ≥ 1 yet `is_claim_success_result` classifies it as not a
success, because the auth-marker check fires first. -/
theorem c1_counterexample :
    successCountOf "unauthorized 成功: 3".toList = some 3 ∧
    is_claim_success_result "unauthorized 成功: 3".toList = false := by decide

/-- Claim C1 (amended): for every text whose success-count is at least 1
and that is not flagged by the error checks (`is_result_error_message`
false), classification reports success — in particular an accompanying
zero failure-count phrase does not prevent the success outcome. -/
theorem c1_success_amended (l : Chars) (n : Nat)
    (herr : is_result_error_message l = false)
    (hsc : successCountOf l = some n) (hn : 1 ≤ n) :
    is_claim_success_result l = true := by
  have hne : n ≠ 0 := by omega
  simp only [is_claim_success_result]
  rw [herr, if_neg (by simp), hsc]
  simp only [Option.isSome_some, Bool.true_or, if_true]
  have hcond : (decide ((some n).getD 0 = 0) && decide (0 < (failCountOf l).getD 0)) = false := by
    simp [hne]
  rw [hcond, if_neg (by simp)]

/-- Witness for C1 at the regression input `成功: 3, 失败: 0`. -/
theorem c1_witness : is_claim_success_result "成功: 3, 失败: 0".toList = true :=
  c1_success_amended "成功: 3, 失败: 0".toList 3 (by decide) (by decide) (by decide)

/-- Claim C2: any text containing a known auth-error marker (in its
lowercased, stripped form) is flagged by `is_result_error_message` and by
`is_token_invalid_result`, and is never counted as a success by
`is_claim_success_result`, regardless of any count-pattern elsewhere in the
text. -/
theorem c2_auth_marker_precedence (l : Chars) (m : Chars)
    (hm : m ∈ authMarkers)
    (hsub : containsSub m (lowerChars (stripChars l)) = true) :
    is_result_error_message l = true ∧
    is_token_invalid_result l = true ∧
    is_claim_success_result l = false := by
  have hm' : m ∈ ["unauthorized".toList, "invalid token".toList, "token invalid".toList,
      "forbidden".toList, "401".toList] := hm
  have hmne : m ≠ [] := by
    simp only [List.mem_cons, List.not_mem_nil, or_false] at hm'
    rcases hm' with rfl | rfl | rfl | rfl | rfl <;> simp
  have herr : is_result_error_message l = true := by
    simp only [is_result_error_message]
    cases hempty : (stripChars l).isEmpty with
    | true => rw [if_pos rfl]
    | false =>
      rw [if_neg (by simp)]
      have hany : (authMarkers.any fun mm => containsSub mm (lowerChars (stripChars l))) = true :=
        List.any_eq_true.mpr ⟨m, hm, hsub⟩
      simp only [hany, Bool.true_or, Bool.or_true]
  have hsne : l.isEmpty = false := by
    cases hl : l with
    | nil =>
      rw [hl] at hsub
      have hm0 : m.isEmpty = true := hsub
      exact absurd (List.isEmpty_iff.mp hm0) hmne
    | cons c cs => rfl
  have htok : is_token_invalid_result l = true := by
    have htrans : containsSub m (lowerChars l) = true := containsSub_lower_strip hsub
    have hany2 : (authMarkers.any fun mm => containsSub mm (lowerChars l)) = true :=
      List.any_eq_true.mpr ⟨m, hm, htrans⟩
    simp only [is_token_invalid_result]
    rw [hsne, if_neg (by simp)]
    simp only [hany2, Bool.true_or]
  refine ⟨herr, htok, ?_⟩
  simp only [is_claim_success_result]
  rw [herr, if_pos rfl]

/-- Witness for C2 at a concrete auth-error text. -/
theorem c2_witness :
    is_result_error_message "HTTP 401 Unauthorized".toList = true ∧
    is_token_invalid_result "HTTP 401 Unauthorized".toList = true ∧
    is_claim_success_result "HTTP 401 Unauthorized".toList = false :=
  c2_auth_marker_precedence "HTTP 401 Unauthorized".toList "401".toList (by decide) (by decide)

/-- Claim C3: scenario A — the two-line text yields exactly one record,
named `半价汉堡`, expiring 2026-01-20 with 2 days left when now is
2026-01-18; it is included at threshold 3 and excluded at threshold 1. -/
theorem c3_scenario_a :
    check_expiring_soon (mkDate 2026 1 18) 3 scenarioAText.toList = [scenarioACoupon] ∧
    scenarioACoupon.name = "半价汉堡".toList ∧
    scenarioACoupon.expiry = some (mkDate 2026 1 20, 2, 1) ∧
    check_expiring_soon (mkDate 2026 1 18) 1 scenarioAText.toList = [] := by decide

/-! ## Claims C4–C8 and C10 -/

/-- Claim C4: a tenant whose stored row already has `last_claim_success = 1`
and `last_claim_at` on today's calendar date is skipped: no remote call, no
notification, state unchanged — so at most one effective run happens per
tenant per calendar date. -/
theorem c4_idempotent_skip (now : PyDateTime) (u : UserState) (rep : Option Int) (res : Chars)
    (h1 : u.last_claim_success = some 1)
    (h2 : _coerce_date u.last_claim_at = some (dateOf now)) :
    process_user_claim now (some u) rep res =
      { skipped := true, remote_called := false, state := some u, sent := [] } := by
  have hskip : shouldSkip now (some u) = true := by
    simp [shouldSkip, h1, h2]
  simp only [process_user_claim]
  rw [hskip, if_pos rfl]

/-- A concrete user row for the C4 witness. -/
def c4User : UserState :=
  { auto_claim_enabled := some 1
    claim_report_enabled := some 1
    last_claim_at := some ⟨2026, 1, 18, 32400⟩
    last_claim_success := some 1
    total_success := some 5
    total_failed := some 0 }

/-- Witness for C4: a tenant already successful today is skipped untouched. -/
theorem c4_witness :
    process_user_claim ⟨2026, 1, 18, 39600⟩ (some c4User) (some 1) "成功: 1".toList =
      { skipped := true, remote_called := false, state := some c4User, sent := [] } :=
  c4_idempotent_skip ⟨2026, 1, 18, 39600⟩ c4User (some 1) "成功: 1".toList
    (by decide) (by decide)

/-- Claim C5: when the remote result is classified as an auth error and the
idempotency guard does not skip the tenant, the run flips
`auto_claim_enabled` to 0 and, with reporting enabled, sends exactly one
credential-refresh notification. -/
theorem c5_auth_disable_notify (now : PyDateTime) (u : UserState) (rep : Option Int) (res : Chars)
    (hns : shouldSkip now (some u) = false)
    (htok : is_token_invalid_result res = true)
    (hrep : rep = none ∨ rep = some 1) :
    (process_user_claim now (some u) rep res).remote_called = true ∧
    (∃ u2, (process_user_claim now (some u) rep res).state = some u2 ∧
      u2.auto_claim_enabled = some 0) ∧
    (process_user_claim now (some u) rep res).sent = [MsgKind.tokenInvalidWarn] := by
  simp only [process_user_claim]
  rw [hns, if_neg (by simp), htok, if_pos rfl]
  rw [if_pos hrep, if_pos rfl]
  refine ⟨rfl, ⟨_, rfl, rfl⟩, rfl⟩

/-- A concrete user row for the C5 witness. -/
def c5User : UserState :=
  { auto_claim_enabled := some 1
    claim_report_enabled := some 1
    last_claim_at := some ⟨2026, 1, 17, 32400⟩
    last_claim_success := some 1
    total_success := some 5
    total_failed := some 0 }

/-- Witness for C5 at a concrete auth-error result. -/
theorem c5_witness :
    (process_user_claim ⟨2026, 1, 18, 39600⟩ (some c5User) none
        "Error: 401 unauthorized".toList).remote_called = true ∧
    (∃ u2, (process_user_claim ⟨2026, 1, 18, 39600⟩ (some c5User) none
        "Error: 401 unauthorized".toList).state = some u2 ∧
      u2.auto_claim_enabled = some 0) ∧
    (process_user_claim ⟨2026, 1, 18, 39600⟩ (some c5User) none
        "Error: 401 unauthorized".toList).sent = [MsgKind.tokenInvalidWarn] :=
  c5_auth_disable_notify ⟨2026, 1, 18, 39600⟩ c5User none "Error: 401 unauthorized".toList
    (by decide) (by decide) (Or.inl rfl)


theorem retryRunAux_ok (attempts : Nat → AttemptOutcome) (r n : Nat) (v : String)
    (h : attempts n = .ok v) : retryRunAux attempts r n = (.value v, n, []) := by
  cases r <;> simp [retryRunAux, h]

theorem retryRunAux_exc_zero (attempts : Nat → AttemptOutcome) (n : Nat) (m : String)
    (h : attempts n = .exc m) : retryRunAux attempts 0 n = (.raised m, n, []) := by
  simp [retryRunAux, h]

theorem retryRunAux_exc_succ (attempts : Nat → AttemptOutcome) (r n : Nat) (m : String)
    (h : attempts n = .exc m) :
    retryRunAux attempts (r + 1) n =
      ((retryRunAux attempts r (n + 1)).1, (retryRunAux attempts r (n + 1)).2.1,
        waitExponential 1 1 10 n :: (retryRunAux attempts r (n + 1)).2.2) := by
  simp [retryRunAux, h]

/-- Claim C6, as stated, is false: an attempt that raises an exception
classified as an authentication failure (here `401 unauthorized`) is
retried — the tenacity decorator carries no retry predicate, so a second
attempt happens and the run makes 2 attempts. -/
theorem c6_counterexample :
    (_request_mcp_with_retry
        (fun n => if n == 1 then .exc "401 unauthorized" else .ok "done")).2.1 = 2 ∧
    is_token_invalid_result "401 unauthorized".toList = true := by decide

/-- Claim C6 (amended): the wrapper makes at most 3 attempts (so a failed
exchange is retried at most twice), the waits between attempts follow
`wait_exponential(multiplier=1, min=1, max=10)`, and every retried attempt
is one that raised an exception — but the retry predicate does not inspect
the failure, so authentication failures raised as exceptions are retried
like transient ones. -/
theorem c6_retry_amended (attempts : Nat → AttemptOutcome) :
    (_request_mcp_with_retry attempts).2.1 ≤ 3 ∧
    (_request_mcp_with_retry attempts).2.2 =
      (List.range ((_request_mcp_with_retry attempts).2.1 - 1)).map
        (fun i => waitExponential 1 1 10 (i + 1)) ∧
    (∀ k, 1 ≤ k → k < (_request_mcp_with_retry attempts).2.1 →
      ∃ m, attempts k = AttemptOutcome.exc m) := by
  rcases h1 : attempts 1 with v1 | m1
  · have e : _request_mcp_with_retry attempts = (.value v1, 1, []) := by
      rw [_request_mcp_with_retry]
      exact retryRunAux_ok attempts _ 1 v1 h1
    have e1 : (_request_mcp_with_retry attempts).2.1 = 1 := by rw [e]
    have e2 : (_request_mcp_with_retry attempts).2.2 = [] := by rw [e]
    refine ⟨by rw [e1] <;> omega, by rw [e2, e1] <;> decide, ?_⟩
    intro k hk1 hk2
    rw [e1] at hk2
    omega
  · rcases h2 : attempts 2 with v2 | m2
    · have e : _request_mcp_with_retry attempts =
          (.value v2, 2, [waitExponential 1 1 10 1]) := by
        rw [_request_mcp_with_retry, stopAfterAttempt]
        rw [retryRunAux_exc_succ attempts 1 1 m1 h1,
          retryRunAux_ok attempts 1 (1 + 1) v2 h2]
      have e1 : (_request_mcp_with_retry attempts).2.1 = 2 := by rw [e]
      have e2 : (_request_mcp_with_retry attempts).2.2 = [waitExponential 1 1 10 1] := by rw [e]
      refine ⟨by rw [e1] <;> omega, by rw [e2, e1] <;> decide, ?_⟩
      intro k hk1 hk2
      rw [e1] at hk2
      have : k = 1 := by omega
      exact this ▸ ⟨m1, h1⟩
    · rcases h3 : attempts 3 with v3 | m3
      · have e : _request_mcp_with_retry attempts =
            (.value v3, 3, [waitExponential 1 1 10 1, waitExponential 1 1 10 2]) := by
          rw [_request_mcp_with_retry, stopAfterAttempt]
          rw [retryRunAux_exc_succ attempts 1 1 m1 h1,
            retryRunAux_exc_succ attempts 0 (1 + 1) m2 h2,
            retryRunAux_ok attempts 0 (1 + 1 + 1) v3 h3]
        have e1 : (_request_mcp_with_retry attempts).2.1 = 3 := by rw [e]
        have e2 : (_request_mcp_with_retry attempts).2.2 =
            [waitExponential 1 1 10 1, waitExponential 1 1 10 2] := by rw [e]
        refine ⟨by rw [e1] <;> omega, by rw [e2, e1] <;> decide, ?_⟩
        intro k hk1 hk2
        rw [e1] at hk2
        have : k = 1 ∨ k = 2 := by omega
        rcases this with rfl | rfl
        · exact ⟨m1, h1⟩
        · exact ⟨m2, h2⟩
      · have e : _request_mcp_with_retry attempts =
            (.raised m3, 3, [waitExponential 1 1 10 1, waitExponential 1 1 10 2]) := by
          rw [_request_mcp_with_retry, stopAfterAttempt]
          rw [retryRunAux_exc_succ attempts 1 1 m1 h1,
            retryRunAux_exc_succ attempts 0 (1 + 1) m2 h2,
            retryRunAux_exc_zero attempts (1 + 1 + 1) m3 h3]
        have e1 : (_request_mcp_with_retry attempts).2.1 = 3 := by rw [e]
        have e2 : (_request_mcp_with_retry attempts).2.2 =
            [waitExponential 1 1 10 1, waitExponential 1 1 10 2] := by rw [e]
        refine ⟨by rw [e1] <;> omega, by rw [e2, e1] <;> decide, ?_⟩
        intro k hk1 hk2
        rw [e1] at hk2
        have : k = 1 ∨ k = 2 := by omega
        rcases this with rfl | rfl
        · exact ⟨m1, h1⟩
        · exact ⟨m2, h2⟩

/-- Claim C7: every record returned by the expiry scan has a resolved
expiry date and a `days_left` between 0 and the threshold. -/
theorem c7_scan_bounds (now : PyDateTime) (thr : Int) (text : Chars) (c : Coupon)
    (hthr : 0 ≤ thr)
    (hc : c ∈ check_expiring_soon now thr text) :
    ∃ e dl i, c.expiry = some (e, dl, i) ∧ 0 ≤ dl ∧ dl ≤ thr := by
  clear hthr
  simp only [check_expiring_soon] at hc
  have h2 := (List.mem_filter.mp hc).2
  rcases hexp : c.expiry with _ | ⟨e, dl, i⟩
  · rw [hexp] at h2
    simp at h2
  · rw [hexp] at h2
    simp only [Bool.and_eq_true, decide_eq_true_eq] at h2
    exact ⟨e, dl, i, rfl, h2.1, h2.2⟩

/-- Witness for C7 on the scenario-A scan. -/
theorem c7_witness :
    ∃ e dl i, scenarioACoupon.expiry = some (e, dl, i) ∧ 0 ≤ dl ∧ dl ≤ 3 :=
  c7_scan_bounds (mkDate 2026 1 18) 3 scenarioAText.toList scenarioACoupon
    (by decide) (by decide)

/-- Peeling step for the score accumulator: adding a conditional
non-negative weight keeps any lower bound. -/
theorem ite_add_ge (c : Prop) [Decidable c] (x w b : Int) (hx : b ≤ x) (hw : 0 ≤ w) :
    b ≤ (if c then x + w else x) := by
  split_ifs <;> omega

/-- Claim C8: the value scorer is a pure function bounded in [0, 100] on
every input text. -/
theorem c8_score_bounds (l : Chars) :
    0 ≤ analyze_coupon_value l ∧ analyze_coupon_value l ≤ 100 := by
  constructor
  · simp only [analyze_coupon_value]
    refine le_min ?_ (by norm_num)
    refine ite_add_ge _ _ _ _ ?_ (by norm_num)
    refine ite_add_ge _ _ _ _ ?_ (by norm_num)
    refine ite_add_ge _ _ _ _ ?_ (by norm_num)
    refine ite_add_ge _ _ _ _ ?_ (by norm_num)
    refine ite_add_ge _ _ _ _ ?_ (by norm_num)
    refine ite_add_ge _ _ _ _ ?_ (by norm_num)
    refine ite_add_ge _ _ _ _ ?_ (by norm_num)
    norm_num
  · simp only [analyze_coupon_value]
    exact min_le_right _ _

/-- Claim C10: the value scorer never returns less than the base score 50,
so unrecognized input ranks mid-scale. -/
theorem c10_score_floor (l : Chars) : 50 ≤ analyze_coupon_value l := by
  simp only [analyze_coupon_value]
  refine le_min ?_ (by norm_num)
  refine ite_add_ge _ _ _ _ ?_ (by norm_num)
  refine ite_add_ge _ _ _ _ ?_ (by norm_num)
  refine ite_add_ge _ _ _ _ ?_ (by norm_num)
  refine ite_add_ge _ _ _ _ ?_ (by norm_num)
  refine ite_add_ge _ _ _ _ ?_ (by norm_num)
  refine ite_add_ge _ _ _ _ ?_ (by norm_num)
  refine ite_add_ge _ _ _ _ ?_ (by norm_num)
  norm_num


/-! ## Claim C9: a single `now` for the whole extraction pass -/

/-- Every `days_left` stored in the record was computed against `now`. -/
def DaysLeftConsistent (now : PyDateTime) (c : Coupon) : Prop :=
  ∀ e dl i, c.expiry = some (e, dl, i) → dl = timedeltaDays e now

/-- Loop-state invariant: the accumulator and every flushed record are
consistent with the single `now`. -/
def StateConsistent (now : PyDateTime) (st : Option Coupon × List Coupon) : Prop :=
  (∀ c, st.1 = some c → DaysLeftConsistent now c) ∧
  (∀ c, c ∈ st.2 → DaysLeftConsistent now c)

theorem daysConsistent_mk (now : PyDateTime) (nc line : Chars) :
    DaysLeftConsistent now { name := nc, raw_text := line, code := none, expiry := none } := by
  intro e dl i h
  simp at h

theorem daysConsistent_of_eq_expiry (now : PyDateTime) (c c' : Coupon)
    (hexp : c'.expiry = c.expiry) (h : DaysLeftConsistent now c) :
    DaysLeftConsistent now c' := by
  intro e dl i he
  exact h e dl i (hexp ▸ he)

theorem flushBlank_consistent (now : PyDateTime) (st : Option Coupon × List Coupon)
    (h : StateConsistent now st) : StateConsistent now (flushBlank st) := by
  obtain ⟨cur, acc⟩ := st
  obtain ⟨h1, h2⟩ := h
  rcases cur with _ | c
  · exact ⟨h1, h2⟩
  · cases hexp : c.expiry.isSome with
    | false =>
      have heq : flushBlank (some c, acc) = (some c, acc) := by
        simp [flushBlank, hexp]
      rw [heq]
      exact ⟨h1, h2⟩
    | true =>
      have heq : flushBlank (some c, acc) = (none, acc ++ [c]) := by
        simp [flushBlank, hexp]
      rw [heq]
      refine ⟨?_, ?_⟩
      · intro c' hc'
        simp at hc'
      · intro c' hc'
        rcases List.mem_append.mp hc' with hm | hm
        · exact h2 c' hm
        · rw [List.mem_singleton] at hm
          rw [hm]
          exact h1 c rfl

theorem applyName_consistent (now : PyDateTime) (nc line : Chars)
    (st : Option Coupon × List Coupon) (h : StateConsistent now st) :
    StateConsistent now (applyName nc line st) := by
  obtain ⟨cur, acc⟩ := st
  obtain ⟨h1, h2⟩ := h
  cases hne : nc.isEmpty with
  | true =>
    have heq : applyName nc line (cur, acc) = (cur, acc) := by
      simp [applyName, hne]
    rw [heq]
    exact ⟨h1, h2⟩
  | false =>
    rcases cur with _ | c
    · have heq : applyName nc line (none, acc) =
          (some { name := nc, raw_text := line, code := none, expiry := none }, acc) := by
        simp [applyName, hne]
      rw [heq]
      refine ⟨?_, h2⟩
      intro c' hc'
      injection hc' with h'
      subst h'
      exact daysConsistent_mk now nc line
    · cases hgen : (c.expiry.isSome && _is_generic_coupon_name c.name &&
          !_is_generic_coupon_name nc) with
      | true =>
        have heq : applyName nc line (some c, acc) =
            (some { c with name := nc, raw_text := line }, acc) := by
          simp [applyName, hne, hgen]
        rw [heq]
        refine ⟨?_, h2⟩
        intro c' hc'
        injection hc' with h'
        subst h'
        exact daysConsistent_of_eq_expiry now c _ rfl (h1 c rfl)
      | false =>
        have heq : applyName nc line (some c, acc) =
            (some { name := nc, raw_text := line, code := none, expiry := none },
              acc ++ [c]) := by
          simp [applyName, hne, hgen]
        rw [heq]
        refine ⟨?_, ?_⟩
        · intro c' hc'
          injection hc' with h'
          subst h'
          exact daysConsistent_mk now nc line
        · intro c' hc'
          rcases List.mem_append.mp hc' with hm | hm
          · exact h2 c' hm
          · rw [List.mem_singleton] at hm
            rw [hm]
            exact h1 c rfl

theorem applyCode_shape (line : Chars) (c : Coupon) :
    ∃ cd, applyCode line (some c) = some { c with code := cd } := by
  simp only [applyCode]
  split_ifs <;> exact ⟨_, rfl⟩

theorem applyCode_consistent (now : PyDateTime) (line : Chars) (cur : Option Coupon)
    (h : ∀ c, cur = some c → DaysLeftConsistent now c) :
    ∀ c, applyCode line cur = some c → DaysLeftConsistent now c := by
  intro c' hc'
  rcases cur with _ | c
  · exact absurd hc' (by simp [applyCode])
  · obtain ⟨cd, heq⟩ := applyCode_shape line c
    rw [heq] at hc'
    injection hc' with h'
    subst h'
    exact daysConsistent_of_eq_expiry now c _ rfl (h c rfl)

theorem applyDetail_shape (line : Chars) (c : Coupon) :
    ∃ nm, applyDetail line (some c) = some { c with name := nm } := by
  simp only [applyDetail]
  split_ifs <;> exact ⟨_, rfl⟩

theorem applyDetail_consistent (now : PyDateTime) (line : Chars) (cur : Option Coupon)
    (h : ∀ c, cur = some c → DaysLeftConsistent now c) :
    ∀ c, applyDetail line cur = some c → DaysLeftConsistent now c := by
  intro c' hc'
  rcases cur with _ | c
  · exact absurd hc' (by simp [applyDetail])
  · obtain ⟨nm, heq⟩ := applyDetail_shape line c
    rw [heq] at hc'
    injection hc' with h'
    subst h'
    exact daysConsistent_of_eq_expiry now c _ rfl (h c rfl)

theorem applyExpiry_consistent (now : PyDateTime) (idx : Nat) (nc line : Chars)
    (cur : Option Coupon) (acc : List Coupon)
    (h1 : ∀ c, cur = some c → DaysLeftConsistent now c)
    (h2 : ∀ c, c ∈ acc → DaysLeftConsistent now c) :
    StateConsistent now (applyExpiry now idx nc line (cur, acc)) := by
  rcases hp : parse_expiry_date now line with _ | e
  · have heq : applyExpiry now idx nc line (cur, acc) = (cur, acc) := by
      simp [applyExpiry, hp]
    rw [heq]
    exact ⟨h1, h2⟩
  · rcases cur with _ | c
    · have heq : applyExpiry now idx nc line (none, acc) =
          (some { name := nc, raw_text := line, code := none,
                  expiry := some (e, timedeltaDays e now, idx) }, acc) := by
        simp [applyExpiry, hp]
      rw [heq]
      refine ⟨?_, h2⟩
      intro c' hc'
      injection hc' with h'
      subst h'
      intro e2 dl i2 he
      simp only [Option.some.injEq, Prod.mk.injEq] at he
      obtain ⟨rfl, hdl, _⟩ := he
      exact hdl.symm
    · have heq : applyExpiry now idx nc line (some c, acc) =
          (some { c with expiry := some (e, timedeltaDays e now, idx) }, acc) := by
        simp [applyExpiry, hp]
      rw [heq]
      refine ⟨?_, h2⟩
      intro c' hc'
      injection hc' with h'
      subst h'
      intro e2 dl i2 he
      simp only [Option.some.injEq, Prod.mk.injEq] at he
      obtain ⟨rfl, hdl, _⟩ := he
      exact hdl.symm

theorem processLine_consistent (now : PyDateTime) (idx : Nat) (rawLine : Chars)
    (st : Option Coupon × List Coupon) (h : StateConsistent now st) :
    StateConsistent now (processLine now idx rawLine st) := by
  obtain ⟨cur, acc⟩ := st
  simp only [processLine]
  cases hline : (stripChars rawLine).isEmpty with
  | true =>
    rw [if_pos rfl]
    exact flushBlank_consistent now (cur, acc) h
  | false =>
    rw [if_neg (by simp)]
    have hn := applyName_consistent now (_extract_coupon_name_from_line (stripChars rawLine))
      (stripChars rawLine) (cur, acc) h
    exact applyExpiry_consistent now idx _ _ _ _
      (applyDetail_consistent now _ _ (applyCode_consistent now _ _ hn.1)) hn.2

theorem foldl_processLine_consistent (now : PyDateTime) (ps : List (Nat × Chars)) :
    ∀ st : Option Coupon × List Coupon, StateConsistent now st →
      StateConsistent now (ps.foldl (fun s p => processLine now p.1 p.2 s) st) := by
  induction ps with
  | nil =>
    intro st h
    exact h
  | cons p rest ih =>
    intro st h
    rw [List.foldl_cons]
    exact ih _ (processLine_consistent now p.1 p.2 st h)

/-- Claim C9: within one extraction pass, every returned record's
`days_left` is computed relative to the single `now` of the pass: it equals
`timedeltaDays` of that record's expiry against the one shared `now`. -/
theorem c9_single_now (now : PyDateTime) (thr : Int) (text : Chars) (c : Coupon)
    (hc : c ∈ check_expiring_soon now thr text)
    (e : PyDateTime) (dl : Int) (i : Nat)
    (he : c.expiry = some (e, dl, i)) :
    dl = timedeltaDays e now := by
  have hst : StateConsistent now
      ((splitLines text).enum.foldl (fun s p => processLine now p.1 p.2 s) (none, [])) :=
    foldl_processLine_consistent now (splitLines text).enum (none, [])
      ⟨fun c0 hc0 => by simp at hc0, fun c0 hc0 => by simp at hc0⟩
  have hfl := flushBlank_consistent now _ hst
  simp only [check_expiring_soon] at hc
  exact hfl.2 c (List.mem_filter.mp hc).1 e dl i he

/-- Witness for C9 on the scenario-A record. -/
theorem c9_witness : (2 : Int) = timedeltaDays (mkDate 2026 1 20) (mkDate 2026 1 18) :=
  c9_single_now (mkDate 2026 1 18) 3 scenarioAText.toList scenarioACoupon (by decide)
    (mkDate 2026 1 20) 2 1 (by decide)
